import Mathlib

/-!
Verification development for the LTX-2 serverless handler (`src/handler.py`).

The pipeline is shallowly embedded: Python dicts carrying workflow nodes are
association lists in insertion order, external effects (random seed draw,
engine readiness, poll responses, the output file system) are supplied as an
explicit environment, and every fallible helper that raises in Python funnels
into the structured failure result exactly as the `try/except` in `handler`
does.  Artifact bytes are represented by the path of the file that is read.
-/

namespace LTX2

/-- Values that the handler writes into workflow-node input fields:
strings, Python ints, and Python floats (modelled as rationals). -/
inductive Value where
  | str (s : String)
  | int (n : Int)
  | rat (q : ℚ)
deriving DecidableEq

/-- One workflow node, keeping only what the handler touches: its
`inputs` mapping from field name to value (insertion-ordered). -/
structure Node where
  inputs : List (String × Value)
deriving DecidableEq

/-- A workflow graph: mapping from node identifier to node (`workflow` dict). -/
abbrev Workflow := List (String × Node)

/-- First-match association-list lookup, the embedding of Python dict access. -/
def lookupS {α : Type} : List (String × α) → String → Option α
  | [], _ => none
  | p :: ps, k => if p.1 = k then some p.2 else lookupS ps k

/-- Python dict assignment `d[f] = v` on an inputs list: replace the entry
in place when the key is present, append it otherwise. -/
def setPairs (l : List (String × Value)) (f : String) (v : Value) : List (String × Value) :=
  if (lookupS l f).isSome then
    l.map (fun p => if p.1 = f then (f, v) else p)
  else
    l ++ [(f, v)]

/-- Embedding of `node["inputs"][f] = v`. -/
def setInput (n : Node) (f : String) (v : Value) : Node :=
  ⟨setPairs n.inputs f v⟩

/-- The guarded write pattern `if node_id in workflow: workflow[i]["inputs"][f] = v`:
a write to an absent node identifier is a no-op. -/
def bindField (w : Workflow) (i f : String) (v : Value) : Workflow :=
  w.map (fun p => if p.1 = i then (p.1, setInput p.2 f v) else p)

/-- Field lookup through the graph: `workflow[i]["inputs"][f]` when present. -/
def getField (w : Workflow) (i f : String) : Option Value :=
  match lookupS w i with
  | some n => lookupS n.inputs f
  | none => none

/-- The node identifiers of a graph, in insertion order. -/
def nodeIds (w : Workflow) : List String :=
  w.map Prod.fst

/-- Embedding of `node_id in workflow`. -/
def present (w : Workflow) (i : String) : Bool :=
  (lookupS w i).isSome

/-- One binding of the binder's fixed table: (node identifier, field name, value). -/
abbrev Binding := String × String × Value

/-- Apply a sequence of guarded field writes in order. -/
def applyBindings (w : Workflow) (t : List Binding) : Workflow :=
  t.foldl (fun w b => bindField w b.1 b.2.1 b.2.2) w

/-- The (node identifier, field name) pairs written by a binding table. -/
def pairsOf (t : List Binding) : List (String × String) :=
  t.map (fun b => (b.1, b.2.1))

/-! ### Request schema and parameter resolution (`DEFAULT_PARAMS`, `handler` lines 380-395) -/

/-- Constant `DEFAULT_NEGATIVE_PROMPT` from the source. -/
def DEFAULT_NEGATIVE_PROMPT : String :=
  "static, frozen, no movement, still frame, blurry, jittery, morphing, deformed, warping, extra limbs, bad anatomy, watermark, text, overlay, titles, subtitles, glitch, artifact, low quality, distorted face"

/-- The caller-supplied job input (`job["input"]`): each option either present
or absent.  Base64 payloads are kept abstract as strings. -/
structure JobInput where
  image : Option String
  prompt : Option String
  negative_prompt : Option String
  width : Option Int
  height : Option Int
  frame_count : Option Int
  steps : Option Int
  cfg : Option ℚ
  fps : Option Int
  seed : Option Int
  timeout : Option Int
  img_compression : Option Int
  i2v_strength_first : Option ℚ
  i2v_strength_second : Option ℚ
  audio : Option String
deriving DecidableEq

/-- The fully-defaulted `params` dict the handler builds. `seed` stays an
`Option` because `DEFAULT_PARAMS["seed"]` is `None`. -/
structure Params where
  image : String
  prompt : String
  negative_prompt : String
  width : Int
  height : Int
  frame_count : Int
  steps : Int
  cfg : ℚ
  fps : Int
  seed : Option Int
  timeout : Int
  img_compression : Int
  i2v_strength_first : ℚ
  i2v_strength_second : ℚ
deriving DecidableEq

/-- Embedding of `params = {...}` in `handler`: merge the request against `DEFAULT_PARAMS`. -/
def resolveParams (j : JobInput) : Params :=
  { image := j.image.getD ""
    prompt := j.prompt.getD ""
    negative_prompt := j.negative_prompt.getD DEFAULT_NEGATIVE_PROMPT
    width := j.width.getD 720
    height := j.height.getD 720
    frame_count := j.frame_count.getD 97
    steps := j.steps.getD 20
    cfg := j.cfg.getD 4
    fps := j.fps.getD 25
    seed := j.seed
    timeout := j.timeout.getD 600
    img_compression := j.img_compression.getD 33
    i2v_strength_first := j.i2v_strength_first.getD 1
    i2v_strength_second := j.i2v_strength_second.getD 1 }

/-- Embedding of `has_custom_audio = "audio" in job_input and job_input["audio"]`:
present and truthy (non-empty). -/
def hasCustomAudio (j : JobInput) : Bool :=
  match j.audio with
  | some s => s != ""
  | none => false

/-- Embedding of `random.randint(0, 2**31 - 1)` driven by an external entropy oracle `r`:
always lands in `[0, 2^31 - 1]`, and uniformly so when `r` is uniform. -/
def randint31 (r : ℕ) : Int :=
  ((r % 2 ^ 31 : ℕ) : Int)

/-- Seed resolution shared by both binders (lines 197-201 and 234-238):
keep an explicit seed, draw a fresh one when it is absent or `-1`. -/
def resolveSeed (seed : Option Int) (r : ℕ) : Int :=
  match seed with
  | none => randint31 r
  | some s => if s = -1 then randint31 r else s

/-- Python `int(...)` on a rational: truncation toward zero
(`Int.tdiv` is T-division on the reduced numerator and denominator). -/
def pyInt (q : ℚ) : Int :=
  q.num.tdiv (q.den : Int)

/-- Embedding of `frame_count = int(audio_duration * fps) + 1` (line 241, recomputed at line 447). -/
def derivedFrameCount (audio_duration : ℚ) (fps : Int) : Int :=
  pyInt (audio_duration * (fps : ℚ)) + 1

/-! ### The two workflow binders -/

/-- The fixed binding table of `modify_workflow_generated_audio`, in source order. -/
def genBindings (p : Params) (seed : Int) : List Binding :=
  [ ("98", "image", .str "input_image.png")
  , ("92:3", "text", .str p.prompt)
  , ("92:4", "text", .str p.negative_prompt)
  , ("92:11", "noise_seed", .int seed)
  , ("92:67", "noise_seed", .int seed)
  , ("92:62", "value", .int p.frame_count)
  , ("92:9", "steps", .int p.steps)
  , ("92:47", "cfg", .rat p.cfg)
  , ("92:22", "frame_rate", .int p.fps)
  , ("92:51", "frame_rate", .int p.fps)
  , ("92:97", "fps", .int p.fps)
  , ("92:99", "img_compression", .int p.img_compression)
  , ("92:107", "strength", .rat p.i2v_strength_first)
  , ("92:108", "strength", .rat p.i2v_strength_second) ]

/-- The fixed binding table of `modify_workflow_custom_audio`, in source order.
It has no frame-count binding; `"92:115"`'s `value` is `float(fps)`. -/
def cusBindings (p : Params) (seed : Int) : List Binding :=
  [ ("98", "image", .str "input_image.png")
  , ("92:3", "text", .str p.prompt)
  , ("92:4", "text", .str p.negative_prompt)
  , ("92:11", "noise_seed", .int seed)
  , ("92:67", "noise_seed", .int seed)
  , ("92:9", "steps", .int p.steps)
  , ("92:47", "cfg", .rat p.cfg)
  , ("92:114", "audio", .str "input_audio.mp3")
  , ("92:115", "value", .rat (p.fps : ℚ))
  , ("92:97", "fps", .int p.fps)
  , ("92:99", "img_compression", .int p.img_compression)
  , ("92:107", "strength", .rat p.i2v_strength_first)
  , ("92:108", "strength", .rat p.i2v_strength_second) ]

/-- Embedding of `modify_workflow_generated_audio`: resolve the seed (backfilling
`params["seed"]`), then apply the guarded writes.  Returns the graph together
with the mutated params dict. -/
def modify_workflow_generated_audio (w : Workflow) (p : Params) (r : ℕ) :
    Workflow × Params :=
  let seed := resolveSeed p.seed r
  (applyBindings w (genBindings p seed), { p with seed := some seed })

/-- Embedding of `modify_workflow_custom_audio`: identical seed handling; the frame count
derived from the audio duration is computed (for logging) but never written
into the graph. -/
def modify_workflow_custom_audio (w : Workflow) (p : Params) (r : ℕ)
    (audio_duration : ℚ) : Workflow × Params :=
  let seed := resolveSeed p.seed r
  let _frame_count := derivedFrameCount audio_duration p.fps
  (applyBindings w (cusBindings p seed), { p with seed := some seed })

/-! ### Execution outputs and the completion poller (`wait_for_completion`) -/

/-- One entry of a node's output description: either a structured
`{filename, subfolder}` object, a bare filename string, or something else. -/
inductive OutItem where
  | obj (filename : Option String) (subfolder : String)
  | strv (s : String)
  | other
deriving DecidableEq

/-- The value under an artifact key: a single item or a list of items
(`if not isinstance(items, list): items = [items]`). -/
inductive OutEntry where
  | one (i : OutItem)
  | many (l : List OutItem)
deriving DecidableEq

/-- Normalize an entry to a list of items, as the source does. -/
def entryItems : OutEntry → List OutItem
  | .one i => [i]
  | .many l => l

/-- One node's output description: field name to entry, insertion-ordered. -/
abbrev NodeOutput := List (String × OutEntry)

/-- Embedding of `history[prompt_id]["outputs"]`: node identifier to output description. -/
abbrev Outputs := List (String × NodeOutput)

/-- The slice of one `GET /history/{prompt_id}` entry that the poller reads:
`outputs` (empty list for absent/empty), `status.status_str`, and
`status.messages`. -/
structure HistEntry where
  outputs : Outputs
  status_str : Option String
  messages : Option (List (List String))
deriving DecidableEq

/-- One poll tick's observable response: a transport failure, a malformed
body, or a decoded history mapping that may or may not contain the handle. -/
inductive PollResponse where
  | netErr
  | malformed
  | history (entry : Option HistEntry)

/-- The poller's terminal outcomes. -/
inductive PollResult where
  | completed (outputs : Outputs)
  | execError (msg : List String)
  | timedOut
deriving DecidableEq

/-- Embedding of `status.get("messages", [["Unknown error"]])[0]`: absent messages give the
default; an empty messages list raises `IndexError`, which the generic
`except` swallows (`none` here). -/
def errMsgOf : Option (List (List String)) → Option (List String)
  | none => some ["Unknown error"]
  | some [] => none
  | some (m :: _) => some m

/-- What one poll tick decides: `some r` terminates the loop with `r`, `none`
falls through to the next tick (transient failures, absent handle, empty
outputs, and the `IndexError` path above). -/
def stepOutcome : PollResponse → Option PollResult
  | .netErr => none
  | .malformed => none
  | .history none => none
  | .history (some e) =>
    if e.status_str = some "error" then
      match errMsgOf e.messages with
      | some m => some (.execError m)
      | none => none
    else if e.outputs.isEmpty then none
    else some (.completed e.outputs)

/-- The poll loop: one tick per second of budget, starting at tick `t`. -/
def pollLoop (resp : ℕ → PollResponse) : ℕ → ℕ → PollResult
  | _, 0 => .timedOut
  | t, fuel + 1 =>
    match stepOutcome (resp t) with
    | some r => r
    | none => pollLoop resp (t + 1) fuel

/-- Embedding of `wait_for_completion(prompt_id, timeout)` with the per-tick responses
supplied by the environment. -/
def wait_for_completion (resp : ℕ → PollResponse) (timeout : ℕ) : PollResult :=
  pollLoop resp 0 timeout

/-! ### Artifact resolution (`get_output_video`) -/

/-- The artifact-bearing keys searched per node, in the source's priority
order: the primary video key, then the alternates of legacy node kinds, then
the generic media/file keys. -/
def keyOrder : List String := ["gifs", "videos", "video", "images", "files"]

/-- Resolve one item to the on-disk path the handler would read
(`/comfyui/output/[subfolder/]filename`); `none` for unusable items
(non-dict/non-str items and falsy filenames). -/
def itemPath : OutItem → Option String
  | .obj none _ => none
  | .obj (some f) sub =>
    if f = "" then none
    else if sub = "" then some ("/comfyui/output/" ++ f)
    else some ("/comfyui/output/" ++ sub ++ "/" ++ f)
  | .strv s => if s = "" then none else some ("/comfyui/output/" ++ s)
  | .other => none

/-- First item in a list whose resolved path exists on disk. -/
def findInItems (ex : String → Bool) (items : List OutItem) : Option String :=
  items.findSome? fun it =>
    match itemPath it with
    | some p => if ex p then some p else none
    | none => none

/-- Search one node's output description key by key in priority order. -/
def findInNode (ex : String → Bool) (node : NodeOutput) : Option String :=
  keyOrder.findSome? fun k =>
    match lookupS node k with
    | some e => findInItems ex (entryItems e)
    | none => none

/-- Suffix test over the character data (Python `str.endswith`). -/
def endsWithS (s suffix : String) : Bool :=
  suffix.data.isSuffixOf s.data

/-- Recognized media extensions: `.mp4 / .webm / .gif / .avi / .mov`. -/
def hasMediaExt (s : String) : Bool :=
  endsWithS s ".mp4" || endsWithS s ".webm" || endsWithS s ".gif" ||
    endsWithS s ".avi" || endsWithS s ".mov"

/-- Code-point lexicographic comparison of character lists, the order Python
uses to compare strings. -/
def charListLt : List Char → List Char → Bool
  | _, [] => false
  | [], _ :: _ => true
  | c :: cs, d :: ds =>
    if c.toNat < d.toNat then true
    else if d.toNat < c.toNat then false
    else charListLt cs ds

/-- Python `a < b` on strings. -/
def pyStrLt (a b : String) : Bool :=
  charListLt a.data b.data

/-- Insert into a list kept in descending order. -/
def insertDesc (s : String) : List String → List String
  | [] => [s]
  | t :: ts => if pyStrLt t s then s :: t :: ts else t :: insertDesc s ts

/-- Embedding of `sorted(files, reverse=True)`: descending (reverse-lexicographic) sort. -/
def sortDesc (l : List String) : List String :=
  l.foldr insertDesc []

/-- A directory of the output tree as `os.walk` yields it: its path and its
files, each carried with a modification time the source never consults. -/
abbrev DirListing := String × List (String × ℕ)

/-- Scan one directory: names in reverse-lexicographic order, first recognized
media extension wins, joined onto the directory path. -/
def scanDir (d : DirListing) : Option String :=
  ((sortDesc (d.2.map Prod.fst)).find? hasMediaExt).map fun f => d.1 ++ "/" ++ f

/-- The directory-tree fallback of `get_output_video`: directories in
`os.walk` order, first hit wins. -/
def scanFallback (tree : List DirListing) : Option String :=
  tree.findSome? scanDir

/-- Embedding of `get_output_video`: nodes in insertion order, keys in priority order, then
the directory fallback.  The returned string is the path of the file whose
bytes the source would return. -/
def get_output_video (outputs : Outputs) (ex : String → Bool)
    (tree : List DirListing) : Option String :=
  match outputs.findSome? (fun nd => findInNode ex nd.2) with
  | some p => some p
  | none => scanFallback tree

/-- Modelled from the spec: "a reverse-chronological scan of a known output
directory tree for files with a recognized media extension, returning the
first match" — the recognized media file with the greatest modification time. -/
def reverseChronologicalFirst (tree : List DirListing) : Option String :=
  ((tree.flatMap fun d => (d.2.filter fun f => hasMediaExt f.1).map
      fun f => (d.1 ++ "/" ++ f.1, f.2)).foldl
    (fun acc f =>
      match acc with
      | none => some f
      | some g => if g.2 < f.2 then some f else some g) none).map Prod.fst

/-! ### The handler -/

/-- The echoed `parameters` object of a success result (lines 432-441 plus the
`frame_count` backfill of lines 445-449). -/
structure EchoParams where
  prompt : String
  width : Int
  height : Int
  steps : Int
  cfg : ℚ
  fps : Int
  img_compression : Int
  i2v_strength_first : ℚ
  i2v_strength_second : ℚ
  frame_count : Int
deriving DecidableEq

/-- Build the echoed parameters from the (post-binder) params dict;
`audioDur` is the handler's `audio_duration` local (`None` outside custom
mode), and the `frame_count` branch mirrors the truthiness test
`if audio_duration:`. -/
def mkEcho (p : Params) (audioDur : Option ℚ) : EchoParams :=
  { prompt := p.prompt
    width := p.width
    height := p.height
    steps := p.steps
    cfg := p.cfg
    fps := p.fps
    img_compression := p.img_compression
    i2v_strength_first := p.i2v_strength_first
    i2v_strength_second := p.i2v_strength_second
    frame_count :=
      match audioDur with
      | some d => if d = 0 then p.frame_count else derivedFrameCount d p.fps
      | none => p.frame_count }

/-- The handler's result value.  `errorOnly` is an early `return {"error": ...}`;
`failure` is the `except` path `{"error", "traceback", "elapsed_time"}`;
`success` mirrors lines 428-450 (`video` holds the path of the returned file,
`audio_duration` the echoed key that only truthy durations produce). -/
inductive HResult where
  | success (video : String) (seed : Option Int) (mode : String)
      (parameters : EchoParams) (audio_duration : Option ℚ) (elapsed_time : ℚ)
  | errorOnly (error : String)
  | failure (error : String) (tb : String) (elapsed_time : ℚ)
deriving DecidableEq

/-- Handler outcome plus whether the inference engine was contacted at all
(readiness probe, submission, or history query). -/
structure HOut where
  result : HResult
  contacted : Bool
deriving DecidableEq

/-- Everything external the one-shot pipeline observes: the entropy oracle,
engine readiness, measured audio duration, the two loaded graph templates,
the submission outcome (`some msg` = raised), per-tick poll responses, output
file existence, the walked output tree, and the wall-clock/traceback values
used in results. -/
structure Env where
  rng : ℕ
  comfyReady : Bool
  audioDuration : ℚ
  wfGen : Workflow
  wfCus : Workflow
  queueErr : Option String
  resp : ℕ → PollResponse
  ex : String → Bool
  tree : List DirListing
  elapsed : ℚ
  tb : String

/-- Message of `str(RuntimeError(f"Workflow error: {error_msg}"))`, with the Python list
rendering abstracted to a comma join. -/
def fmtWorkflowError (m : List String) : String :=
  "Workflow error: " ++ String.intercalate ", " m

/-- Message of `str(TimeoutError(f"Generation timed out after {timeout} seconds"))`. -/
def fmtTimeout (t : Int) : String :=
  "Generation timed out after " ++ toString t ++ " seconds"

/-- The pipeline after request validation: readiness, binding, submission,
polling, artifact resolution; every raised error is converted at the boundary
into the structured `failure` shape. -/
def handlerCore (custom : Bool) (p : Params) (env : Env) : HOut :=
  if env.comfyReady = false then ⟨.errorOnly "ComfyUI server not available", true⟩
  else
    let audioDur : Option ℚ := if custom then some env.audioDuration else none
    let bound :=
      if custom then modify_workflow_custom_audio env.wfCus p env.rng env.audioDuration
      else modify_workflow_generated_audio env.wfGen p env.rng
    match env.queueErr with
    | some m => ⟨.failure m env.tb env.elapsed, true⟩
    | none =>
      match wait_for_completion env.resp p.timeout.toNat with
      | .execError m => ⟨.failure (fmtWorkflowError m) env.tb env.elapsed, true⟩
      | .timedOut => ⟨.failure (fmtTimeout p.timeout) env.tb env.elapsed, true⟩
      | .completed outs =>
        match get_output_video outs env.ex env.tree with
        | none => ⟨.errorOnly "No video output generated", true⟩
        | some vid =>
          ⟨.success vid bound.2.seed
            (if custom then "custom_audio" else "generated_audio")
            (mkEcho bound.2 audioDur)
            (match audioDur with
             | some d => if d = 0 then none else some d
             | none => none)
            env.elapsed, true⟩

/-- The `handler` entry point: field validation then the pipeline, with mode
selection a pure function of the request shape. -/
def handler (j : JobInput) (env : Env) : HOut :=
  if j.image.isNone then ⟨.errorOnly "Missing required field: image", false⟩
  else if j.prompt.isNone then ⟨.errorOnly "Missing required field: prompt", false⟩
  else handlerCore (hasCustomAudio j) (resolveParams j) env

/-- The echoed frame count of a result, when it is a success. -/
def resultFrameCount : HResult → Option Int
  | .success _ _ _ ps _ _ => some ps.frame_count
  | _ => none

/-- The echoed seed of a result, when it is a success. -/
def resultSeed : HResult → Option (Option Int)
  | .success _ s _ _ _ _ => some s
  | _ => none

/-- Whether a result is a terminal failure (of either shape). -/
def isTerminalFailure : HResult → Bool
  | .errorOnly _ => true
  | .failure _ _ _ => true
  | .success _ _ _ _ _ _ => false

/-- Whether a failure carries the full `{error, traceback, elapsed_time}` shape. -/
def hasFullFailureShape : HResult → Bool
  | .failure _ _ _ => true
  | _ => false

/-- The failure-shape discipline the code actually follows: exception-path
failures carry the full structured shape, and the only bare `{error}` results
are the four early returns. -/
def failureShapeOk (r : HResult) : Prop :=
  match r with
  | .errorOnly m =>
    m ∈ [ "Missing required field: image", "Missing required field: prompt"
        , "ComfyUI server not available", "No video output generated" ]
  | _ => True

/-! ### Concrete fixtures used by witnesses and counterexamples -/

/-- An outputs mapping with one video under the primary key. -/
def exOutputs : Outputs := [("9", [("gifs", .one (.obj (some "a.mp4") ""))])]

/-- A file system on which exactly that video exists. -/
def exExists : String → Bool := fun s => decide (s = "/comfyui/output/a.mp4")

/-- Poll responses that complete with `exOutputs` on the first tick. -/
def exResp : ℕ → PollResponse := fun _ => .history (some ⟨exOutputs, none, none⟩)

/-- A benign environment with a given measured audio duration. -/
def exEnv (d : ℚ) : Env :=
  { rng := 12345, comfyReady := true, audioDuration := d, wfGen := [], wfCus := []
  , queueErr := none, resp := exResp, ex := exExists, tree := [], elapsed := 0, tb := "tb" }

/-- A custom-audio request with an explicit seed and caller frame count. -/
def exCustomJob : JobInput :=
  { image := some "img", prompt := some "hello", negative_prompt := none, width := none
  , height := none, frame_count := some 42, steps := none, cfg := none, fps := none
  , seed := some 7, timeout := none, img_compression := none, i2v_strength_first := none
  , i2v_strength_second := none, audio := some "AUDIO" }

/-- The same request in generated-audio mode with no seed. -/
def exGenJob : JobInput := { exCustomJob with audio := none, seed := none }

/-- A request missing the mandatory image field. -/
def exMissingImageJob : JobInput := { exCustomJob with image := none }

/-- The custom-audio request with no caller-supplied frame count. -/
def exCustomJobDefault : JobInput := { exCustomJob with frame_count := none }

/-- Resolved params with the explicit seed 5. -/
def exSeedParams : Params := resolveParams { exGenJob with seed := some 5 }

/-- A workflow carrying both noise-seed nodes and one unrelated node. -/
def exSeedWorkflow : Workflow :=
  [("92:11", ⟨[]⟩), ("92:67", ⟨[]⟩), ("77", ⟨[("foo", .int 9)]⟩)]

/-- A history entry reporting an execution error with an empty messages list. -/
def exErrEntry : HistEntry := ⟨[], some "error", some []⟩

/-- An output tree whose newest media file sorts lexicographically first. -/
def exTree : List DirListing := [("/comfyui/output", [("a.mp4", 100), ("b.mp4", 50)])]

/-! ## Theorems -/

/-! ### Lemmas about graph mutation -/

theorem lookupS_append_of_none {α : Type} {l₁ : List (String × α)} (l₂ : List (String × α))
    {k : String} (h : lookupS l₁ k = none) :
    lookupS (l₁ ++ l₂) k = lookupS l₂ k := by
  induction l₁ with
  | nil => rfl
  | cons p ps ih =>
    by_cases hp : p.1 = k
    · simp [lookupS, hp] at h
    · simp only [lookupS, hp, if_false] at h
      simpa [lookupS, hp] using ih h

theorem lookupS_append_single_ne (l : List (String × Value)) {f g : String} (v : Value)
    (hfg : g ≠ f) : lookupS (l ++ [(f, v)]) g = lookupS l g := by
  induction l with
  | nil =>
    show (if f = g then some v else none) = none
    exact if_neg (fun he => hfg he.symm)
  | cons p ps ih =>
    by_cases hp : p.1 = g <;> simp [lookupS, hp, ih]

theorem lookupS_map_replace_self {l : List (String × Value)} {f : String} (v : Value)
    (h : (lookupS l f).isSome) :
    lookupS (l.map (fun p => if p.1 = f then (f, v) else p)) f = some v := by
  induction l with
  | nil => simp [lookupS] at h
  | cons p ps ih =>
    simp only [List.map_cons]
    by_cases hp : p.1 = f
    · rw [if_pos hp]; simp [lookupS]
    · rw [if_neg hp]
      simp only [lookupS, hp, if_false] at h
      simp [lookupS, hp, ih h]

theorem lookupS_map_replace_ne (l : List (String × Value)) {f g : String} (v : Value)
    (hfg : g ≠ f) :
    lookupS (l.map (fun p => if p.1 = f then (f, v) else p)) g = lookupS l g := by
  induction l with
  | nil => rfl
  | cons p ps ih =>
    simp only [List.map_cons]
    by_cases hp : p.1 = f
    · rw [if_pos hp]
      have h2 : ¬ (f = g) := fun he => hfg he.symm
      have h3 : ¬ (p.1 = g) := by rw [hp]; exact h2
      simp [lookupS, h2, h3, ih]
    · rw [if_neg hp]
      by_cases hg : p.1 = g <;> simp [lookupS, hg, ih]

theorem lookupS_setPairs_self (l : List (String × Value)) (f : String) (v : Value) :
    lookupS (setPairs l f v) f = some v := by
  unfold setPairs
  by_cases h : (lookupS l f).isSome
  · rw [if_pos h]
    exact lookupS_map_replace_self v h
  · rw [if_neg h]
    have hnone : lookupS l f = none := by
      cases hl : lookupS l f with
      | none => rfl
      | some v' => rw [hl] at h; simp at h
    rw [lookupS_append_of_none _ hnone]
    simp [lookupS]

theorem lookupS_setPairs_ne (l : List (String × Value)) {f g : String} (v : Value)
    (hfg : g ≠ f) : lookupS (setPairs l f v) g = lookupS l g := by
  unfold setPairs
  by_cases h : (lookupS l f).isSome
  · rw [if_pos h]
    exact lookupS_map_replace_ne l v hfg
  · rw [if_neg h]
    exact lookupS_append_single_ne l v hfg

/-- How a guarded node write affects node lookup: the targeted node (if any)
has its field set, every other node is untouched. -/
theorem lookupS_bindField (w : Workflow) (i j f : String) (v : Value) :
    lookupS (bindField w j f v) i =
      if i = j then (lookupS w i).map (fun n => setInput n f v) else lookupS w i := by
  induction w with
  | nil => by_cases h : i = j <;> simp [bindField, lookupS, h]
  | cons p ps ih =>
    by_cases hpi : p.1 = i
    · by_cases hij : i = j
      · have hpj : p.1 = j := by rw [hpi, hij]
        simp [bindField, lookupS, hpj, hpi, hij]
      · have hpj : ¬ p.1 = j := by rw [hpi]; exact hij
        simp [bindField, lookupS, hpj, hpi, hij]
    · by_cases hpj : p.1 = j
      · have hji : ¬ j = i := fun he => hpi (by rw [hpj, he])
        simpa [bindField, lookupS, hpj, hpi, hji] using ih
      · simpa [bindField, lookupS, hpj, hpi] using ih

theorem nodeIds_bindField (w : Workflow) (i f : String) (v : Value) :
    nodeIds (bindField w i f v) = nodeIds w := by
  induction w with
  | nil => rfl
  | cons p ps ih =>
    by_cases hp : p.1 = i <;> simpa [bindField, nodeIds, hp] using ih

theorem present_bindField (w : Workflow) (i j f : String) (v : Value) :
    present (bindField w j f v) i = present w i := by
  unfold present
  rw [lookupS_bindField]
  by_cases h : i = j
  · subst h; cases lookupS w i <;> simp
  · simp [h]

theorem getField_bindField_self {w : Workflow} {i : String} (f : String) (v : Value)
    (h : present w i = true) :
    getField (bindField w i f v) i f = some v := by
  unfold present at h
  cases hl : lookupS w i with
  | none => rw [hl] at h; simp at h
  | some n =>
    unfold getField
    rw [lookupS_bindField, if_pos rfl, hl]
    simp [setInput, lookupS_setPairs_self]

theorem getField_bindField_ne (w : Workflow) {i j f g : String} (v : Value)
    (h : i ≠ j ∨ g ≠ f) :
    getField (bindField w j f v) i g = getField w i g := by
  unfold getField
  rw [lookupS_bindField]
  by_cases hij : i = j
  · have hgf : g ≠ f := h.resolve_left (fun hne => hne hij)
    rw [if_pos hij]
    cases lookupS w i with
    | none => rfl
    | some n => simp [setInput, lookupS_setPairs_ne _ _ hgf]
  · rw [if_neg hij]

theorem nodeIds_applyBindings (w : Workflow) (t : List Binding) :
    nodeIds (applyBindings w t) = nodeIds w := by
  induction t generalizing w with
  | nil => rfl
  | cons b bs ih =>
    simpa [applyBindings] using (ih (bindField w b.1 b.2.1 b.2.2)).trans
      (nodeIds_bindField w b.1 b.2.1 b.2.2)

theorem present_applyBindings (w : Workflow) (t : List Binding) (i : String) :
    present (applyBindings w t) i = present w i := by
  induction t generalizing w with
  | nil => rfl
  | cons b bs ih =>
    simpa [applyBindings] using (ih (bindField w b.1 b.2.1 b.2.2)).trans
      (present_bindField w i b.1 b.2.1 b.2.2)

theorem getField_applyBindings_notin (w : Workflow) {t : List Binding} {i f : String}
    (h : ∀ b ∈ t, b.1 ≠ i ∨ b.2.1 ≠ f) :
    getField (applyBindings w t) i f = getField w i f := by
  induction t generalizing w with
  | nil => rfl
  | cons b bs ih =>
    have hb := h b (List.mem_cons_self b bs)
    have : getField (bindField w b.1 b.2.1 b.2.2) i f = getField w i f := by
      apply getField_bindField_ne
      rcases hb with h1 | h2
      · exact Or.inl (fun he => h1 he.symm)
      · exact Or.inr (fun he => h2 he.symm)
    calc getField (applyBindings (bindField w b.1 b.2.1 b.2.2) bs) i f
        = getField (bindField w b.1 b.2.1 b.2.2) i f :=
          ih (bindField w b.1 b.2.1 b.2.2) (fun b' hb' => h b' (List.mem_cons_of_mem b hb'))
      _ = getField w i f := this

/-- A binding table whose (node, field) pairs are distinct binds every present
target node's field to the table's value for it. -/
theorem getField_applyBindings_mem {w : Workflow} {t : List Binding} {i f : String}
    {v : Value} (hnd : (pairsOf t).Nodup) (hmem : (⟨i, f, v⟩ : Binding) ∈ t)
    (hpres : present w i = true) :
    getField (applyBindings w t) i f = some v := by
  induction t generalizing w with
  | nil => exact absurd hmem (List.not_mem_nil _)
  | cons b bs ih =>
    rw [List.mem_cons] at hmem
    have hnd' : (pairsOf bs).Nodup := (List.nodup_cons.mp hnd).2
    rcases hmem with hb | hbs
    · subst hb
      have hnotin : (i, f) ∉ pairsOf bs := (List.nodup_cons.mp hnd).1
      have hall : ∀ b' ∈ bs, b'.1 ≠ i ∨ b'.2.1 ≠ f := by
        intro b' hb'
        by_cases h1 : b'.1 = i
        · by_cases h2 : b'.2.1 = f
          · exact absurd (by simpa [pairsOf, h1, h2] using List.mem_map_of_mem (fun b => (b.1, b.2.1)) hb') hnotin
          · exact Or.inr h2
        · exact Or.inl h1
      show getField (applyBindings (bindField w i f v) bs) i f = some v
      rw [getField_applyBindings_notin _ hall]
      exact getField_bindField_self f v hpres
    · show getField (applyBindings (bindField w b.1 b.2.1 b.2.2) bs) i f = some v
      exact ih hnd' hbs (by rw [present_bindField]; exact hpres)

theorem pairsOf_genBindings (p : Params) (s : Int) :
    pairsOf (genBindings p s) =
      [ ("98", "image"), ("92:3", "text"), ("92:4", "text"), ("92:11", "noise_seed")
      , ("92:67", "noise_seed"), ("92:62", "value"), ("92:9", "steps"), ("92:47", "cfg")
      , ("92:22", "frame_rate"), ("92:51", "frame_rate"), ("92:97", "fps")
      , ("92:99", "img_compression"), ("92:107", "strength"), ("92:108", "strength") ] := rfl

theorem pairsOf_cusBindings (p : Params) (s : Int) :
    pairsOf (cusBindings p s) =
      [ ("98", "image"), ("92:3", "text"), ("92:4", "text"), ("92:11", "noise_seed")
      , ("92:67", "noise_seed"), ("92:9", "steps"), ("92:47", "cfg"), ("92:114", "audio")
      , ("92:115", "value"), ("92:97", "fps"), ("92:99", "img_compression")
      , ("92:107", "strength"), ("92:108", "strength") ] := rfl

theorem genBindings_pairs_nodup (p : Params) (s : Int) :
    (pairsOf (genBindings p s)).Nodup := by
  rw [pairsOf_genBindings]; decide

theorem cusBindings_pairs_nodup (p : Params) (s : Int) :
    (pairsOf (cusBindings p s)).Nodup := by
  rw [pairsOf_cusBindings]; decide

/-- If every tick before `t` falls through and tick `t` terminates with `r`,
the loop returns `r` as soon as tick `t` is inside the budget — regardless of
what any later tick would have reported. -/
theorem pollLoop_terminates_at (resp : ℕ → PollResponse) {t : ℕ} {r : PollResult}
    (fuel : ℕ) (base : ℕ)
    (hbefore : ∀ i, i < t → stepOutcome (resp (base + i)) = none)
    (hat : stepOutcome (resp (base + t)) = some r)
    (hfuel : t < fuel) :
    pollLoop resp base fuel = r := by
  induction t generalizing base fuel with
  | zero =>
    cases fuel with
    | zero => exact absurd hfuel (by simp)
    | succ n => simpa [pollLoop] using by rw [show base + 0 = base from rfl] at hat; simp [hat]
  | succ k ih =>
    cases fuel with
    | zero => exact absurd hfuel (by simp)
    | succ n =>
      have h0 : stepOutcome (resp base) = none := by
        simpa using hbefore 0 (Nat.succ_pos k)
      rw [pollLoop, h0]
      exact ih n (base + 1)
        (fun i hi => by
          have := hbefore (i + 1) (Nat.succ_lt_succ hi)
          simpa [Nat.add_assoc, Nat.add_comm 1 i] using this)
        (by simpa [Nat.add_assoc, Nat.add_comm 1 k] using hat)
        (Nat.lt_of_succ_lt_succ hfuel)

/-! ## Unfolding lemmas for the binders -/

theorem generated_eq (w : Workflow) (p : Params) (r : ℕ) :
    modify_workflow_generated_audio w p r
      = (applyBindings w (genBindings p (resolveSeed p.seed r)),
         { p with seed := some (resolveSeed p.seed r) }) := by
  unfold modify_workflow_generated_audio
  rfl

theorem custom_eq (w : Workflow) (p : Params) (r : ℕ) (d : ℚ) :
    modify_workflow_custom_audio w p r d
      = (applyBindings w (cusBindings p (resolveSeed p.seed r)),
         { p with seed := some (resolveSeed p.seed r) }) := by
  unfold modify_workflow_custom_audio
  rfl

theorem generated_graph_eq (w : Workflow) (p : Params) (r : ℕ) :
    (modify_workflow_generated_audio w p r).1
      = applyBindings w (genBindings p (resolveSeed p.seed r)) := by
  rw [generated_eq]

theorem custom_graph_eq (w : Workflow) (p : Params) (r : ℕ) (d : ℚ) :
    (modify_workflow_custom_audio w p r d).1
      = applyBindings w (cusBindings p (resolveSeed p.seed r)) := by
  rw [custom_eq]

theorem generated_params_eq (w : Workflow) (p : Params) (r : ℕ) :
    (modify_workflow_generated_audio w p r).2
      = { p with seed := some (resolveSeed p.seed r) } := by
  rw [generated_eq]

theorem custom_params_eq (w : Workflow) (p : Params) (r : ℕ) (d : ℚ) :
    (modify_workflow_custom_audio w p r d).2
      = { p with seed := some (resolveSeed p.seed r) } := by
  rw [custom_eq]

/-! ## Lemmas about the fallback scan's ordering -/

theorem charListLt_irrefl (l : List Char) : charListLt l l = false := by
  induction l with
  | nil => rfl
  | cons c cs ih => simp [charListLt, ih]

theorem charListLt_asymm {a b : List Char} (h : charListLt a b = true) :
    charListLt b a = false := by
  induction a generalizing b with
  | nil =>
    cases b with
    | nil => simp [charListLt] at h
    | cons d ds => rfl
  | cons c cs ih =>
    cases b with
    | nil => simp [charListLt] at h
    | cons d ds =>
      by_cases h1 : c.toNat < d.toNat
      · have h2 : ¬ d.toNat < c.toNat := by omega
        simp [charListLt, h1, h2]
      · by_cases h2 : d.toNat < c.toNat
        · simp [charListLt, h1, h2] at h
        · simp only [charListLt, if_neg h1, if_neg h2] at h
          simp [charListLt, h1, h2, ih h]

theorem charListLt_not_lt_trans {a b c : List Char}
    (hab : charListLt a b = false) (hbc : charListLt b c = false) :
    charListLt a c = false := by
  induction a generalizing b c with
  | nil =>
    cases c with
    | nil => rfl
    | cons e es =>
      cases b with
      | nil => simp [charListLt] at hbc
      | cons d ds => simp [charListLt] at hab
  | cons x xs ih =>
    cases c with
    | nil => rfl
    | cons e es =>
      cases b with
      | nil => simp [charListLt] at hbc
      | cons d ds =>
        by_cases h1 : x.toNat < d.toNat
        · simp [charListLt, h1] at hab
        · by_cases h2 : d.toNat < e.toNat
          · simp [charListLt, h2] at hbc
          · by_cases h3 : x.toNat < e.toNat
            · exact absurd h3 (by omega)
            · by_cases h4 : e.toNat < x.toNat
              · simp [charListLt, h3, h4]
              · have hdx : ¬ d.toNat < x.toNat := by omega
                have hed : ¬ e.toNat < d.toNat := by omega
                simp only [charListLt, if_neg h1, if_neg hdx] at hab
                simp only [charListLt, if_neg h2, if_neg hed] at hbc
                simp [charListLt, h3, h4, ih hab hbc]

theorem pyStrLt_irrefl (a : String) : pyStrLt a a = false :=
  charListLt_irrefl a.data

theorem pyStrLt_asymm {a b : String} (h : pyStrLt a b = true) :
    pyStrLt b a = false :=
  charListLt_asymm h

theorem pyStrLt_not_lt_trans {a b c : String}
    (hab : pyStrLt a b = false) (hbc : pyStrLt b c = false) :
    pyStrLt a c = false :=
  charListLt_not_lt_trans hab hbc

theorem mem_insertDesc {a b : String} {l : List String} :
    b ∈ insertDesc a l ↔ b = a ∨ b ∈ l := by
  induction l with
  | nil => simp [insertDesc]
  | cons t ts ih =>
    by_cases h : pyStrLt t a = true
    · simp [insertDesc, h, List.mem_cons]
      try tauto
    · simp [insertDesc, h, List.mem_cons, ih]
      try tauto

theorem mem_sortDesc {b : String} {l : List String} : b ∈ sortDesc l ↔ b ∈ l := by
  induction l with
  | nil => simp [sortDesc]
  | cons t ts ih =>
    show b ∈ insertDesc t (sortDesc ts) ↔ _
    rw [mem_insertDesc, ih, List.mem_cons]

theorem pairwise_insertDesc {a : String} {l : List String}
    (h : l.Pairwise (fun x y => pyStrLt x y = false)) :
    (insertDesc a l).Pairwise (fun x y => pyStrLt x y = false) := by
  induction l with
  | nil => simp [insertDesc, pyStrLt_irrefl]
  | cons t ts ih =>
    by_cases hlt : pyStrLt t a = true
    · show (if pyStrLt t a then a :: t :: ts else t :: insertDesc a ts).Pairwise _
      rw [if_pos hlt]
      refine List.Pairwise.cons ?_ h
      intro x hx
      rcases List.mem_cons.mp hx with hxt | hxts
      · exact hxt ▸ pyStrLt_asymm hlt
      · exact pyStrLt_not_lt_trans (pyStrLt_asymm hlt) (List.rel_of_pairwise_cons h hxts)
    · have hlt' : pyStrLt t a = false := by
        cases hv : pyStrLt t a with
        | true => exact absurd hv hlt
        | false => rfl
      show (if pyStrLt t a then a :: t :: ts else t :: insertDesc a ts).Pairwise _
      rw [if_neg hlt]
      refine List.Pairwise.cons ?_ (ih h.of_cons)
      intro x hx
      rcases mem_insertDesc.mp hx with hxa | hxts
      · exact hxa ▸ hlt'
      · exact List.rel_of_pairwise_cons h hxts

theorem sortDesc_pairwise (l : List String) :
    (sortDesc l).Pairwise (fun x y => pyStrLt x y = false) := by
  induction l with
  | nil => exact List.Pairwise.nil
  | cons t ts ih => exact pairwise_insertDesc ih

theorem find?_desc_max {l : List String} {q : String → Bool} {g : String}
    (hp : l.Pairwise (fun x y => pyStrLt x y = false)) (h : l.find? q = some g) :
    ∀ g' ∈ l, q g' = true → pyStrLt g g' = false := by
  induction l with
  | nil => simp at h
  | cons t ts ih =>
    intro g' hg' hq
    rcases List.mem_cons.mp hg' with rfl | hmem
    · cases hqt : q g' with
      | true =>
        rw [List.find?_cons_of_pos _ hqt] at h
        injection h with h
        exact h ▸ pyStrLt_irrefl g'
      | false => rw [hq] at hqt; cases hqt
    · cases hqt : q t with
      | true =>
        rw [List.find?_cons_of_pos _ hqt] at h
        injection h with h
        exact h ▸ List.rel_of_pairwise_cons hp hmem
      | false =>
        rw [List.find?_cons_of_neg _ (by rw [hqt]; simp)] at h
        exact ih hp.of_cons h g' hmem hq

/-- Truncation agrees with the floor for nonnegative rationals. -/
theorem pyInt_eq_floor {q : ℚ} (h : 0 ≤ q) : pyInt q = ⌊q⌋ := by
  rw [Rat.floor_def]
  unfold pyInt
  have hnum : 0 ≤ q.num := Rat.num_nonneg.mpr h
  obtain ⟨m, hm⟩ := Int.eq_ofNat_of_zero_le hnum
  rw [hm]
  rfl

/-! ## Lemmas about the handler pipeline -/

/-- Validated requests route to the pipeline core. -/
theorem handler_eq_core (j : JobInput) (env : Env)
    (h1 : j.image.isNone = false) (h2 : j.prompt.isNone = false) :
    handler j env = handlerCore (hasCustomAudio j) (resolveParams j) env := by
  simp [handler, h1, h2]

/-- In custom-audio mode with a nonzero measured duration, the caller-supplied
frame count influences nothing: it is bound nowhere and the echo uses the
derived value. -/
theorem handlerCore_frame_count_irrelevant (p : Params) (env : Env) (x : Int)
    (hd0 : env.audioDuration ≠ 0) :
    handlerCore true { p with frame_count := x } env = handlerCore true p env := by
  by_cases hr : env.comfyReady = false
  · simp [handlerCore, hr]
  · simp only [handlerCore, if_neg hr]
    cases env.queueErr with
    | some m => rfl
    | none =>
      dsimp only
      cases hw : wait_for_completion env.resp p.timeout.toNat with
      | execError m => simp [hw]
      | timedOut => simp [hw]
      | completed outs =>
        simp only [hw]
        cases hv : get_output_video outs env.ex env.tree with
        | none => simp [hv]
        | some vid => simp [hv, custom_params_eq, mkEcho, derivedFrameCount, hd0]

/-! ## Claim theorems -/

set_option maxHeartbeats 2000000 in
/-- C1, counterexample: with the explicit seed 5 both noise-seed nodes receive
the value 5; the stage-two node does not receive stage-one's seed plus 1 as
the claim asserts. -/
theorem C1_counterexample :
    resolveSeed (some 5) 0 = 5 ∧
    getField (modify_workflow_generated_audio exSeedWorkflow exSeedParams 0).1
      "92:11" "noise_seed" = some (.int 5) ∧
    getField (modify_workflow_generated_audio exSeedWorkflow exSeedParams 0).1
      "92:67" "noise_seed" = some (.int 5) ∧
    getField (modify_workflow_generated_audio exSeedWorkflow exSeedParams 0).1
      "92:67" "noise_seed" ≠ some (.int (5 + 1)) := by
  decide

/-- C1, amended: for every request with an explicit seed (not absent, not the
-1 sentinel) the resolved seed equals the caller-supplied seed, and both
noise-seed nodes present in the graph — under either binder — receive that
same resolved seed (stage-two seed equals stage-one seed, not plus 1). -/
theorem C1_explicit_seed_noise_seeds (w w' : Workflow) (p : Params) (r : ℕ) (d : ℚ)
    (s : Int) (hs : p.seed = some s) (hne : s ≠ -1) :
    resolveSeed p.seed r = s ∧
    (present w "92:11" = true →
      getField (modify_workflow_generated_audio w p r).1 "92:11" "noise_seed" = some (.int s)) ∧
    (present w "92:67" = true →
      getField (modify_workflow_generated_audio w p r).1 "92:67" "noise_seed" = some (.int s)) ∧
    (present w' "92:11" = true →
      getField (modify_workflow_custom_audio w' p r d).1 "92:11" "noise_seed" = some (.int s)) ∧
    (present w' "92:67" = true →
      getField (modify_workflow_custom_audio w' p r d).1 "92:67" "noise_seed" = some (.int s)) := by
  have hres : resolveSeed p.seed r = s := by rw [hs]; simp [resolveSeed, hne]
  refine ⟨hres, ?_, ?_, ?_, ?_⟩ <;> intro hp
  · rw [generated_graph_eq]
    refine getField_applyBindings_mem (genBindings_pairs_nodup p _) ?_ hp
    rw [hres]
    simp only [genBindings]
    exact List.mem_cons_of_mem _ (List.mem_cons_of_mem _ (List.mem_cons_of_mem _
      (List.mem_cons_self _ _)))
  · rw [generated_graph_eq]
    refine getField_applyBindings_mem (genBindings_pairs_nodup p _) ?_ hp
    rw [hres]
    simp only [genBindings]
    exact List.mem_cons_of_mem _ (List.mem_cons_of_mem _ (List.mem_cons_of_mem _
      (List.mem_cons_of_mem _ (List.mem_cons_self _ _))))
  · rw [custom_graph_eq]
    refine getField_applyBindings_mem (cusBindings_pairs_nodup p _) ?_ hp
    rw [hres]
    simp only [cusBindings]
    exact List.mem_cons_of_mem _ (List.mem_cons_of_mem _ (List.mem_cons_of_mem _
      (List.mem_cons_self _ _)))
  · rw [custom_graph_eq]
    refine getField_applyBindings_mem (cusBindings_pairs_nodup p _) ?_ hp
    rw [hres]
    simp only [cusBindings]
    exact List.mem_cons_of_mem _ (List.mem_cons_of_mem _ (List.mem_cons_of_mem _
      (List.mem_cons_of_mem _ (List.mem_cons_self _ _))))

set_option maxHeartbeats 2000000 in
/-- C1, witness: the amended theorem applied at the concrete seed 5. -/
theorem C1_witness :
    resolveSeed (some 5) 0 = 5 ∧
    getField (modify_workflow_generated_audio exSeedWorkflow exSeedParams 0).1
      "92:11" "noise_seed" = some (.int 5) := by
  have h := C1_explicit_seed_noise_seeds exSeedWorkflow exSeedWorkflow exSeedParams 0 0 5
    rfl (by decide)
  exact ⟨h.1, h.2.1 (by decide)⟩

/-- C3: a request missing the image field yields the `MissingField`-shaped
error result with no engine contact (no readiness probe, submission or
history query). -/
theorem C3_missing_image_short_circuits (j : JobInput) (env : Env)
    (h : j.image = none) :
    handler j env = ⟨.errorOnly "Missing required field: image", false⟩ := by
  simp [handler, h]

/-- C3, witness: the theorem at a concrete image-less request. -/
theorem C3_witness :
    handler exMissingImageJob (exEnv 0) = ⟨.errorOnly "Missing required field: image", false⟩ :=
  C3_missing_image_short_circuits exMissingImageJob (exEnv 0) rfl

/-- C7: both binders are total on every graph: node identifiers are preserved
(writes to absent targets are silently skipped, absent nodes stay absent),
and every target node identifier that is present receives its bound value. -/
theorem C7_binder_tolerance (w : Workflow) (p : Params) (r : ℕ) (d : ℚ) :
    nodeIds (modify_workflow_generated_audio w p r).1 = nodeIds w ∧
    nodeIds (modify_workflow_custom_audio w p r d).1 = nodeIds w ∧
    (∀ i, present w i = false → present (modify_workflow_generated_audio w p r).1 i = false) ∧
    (∀ i, present w i = false → present (modify_workflow_custom_audio w p r d).1 i = false) ∧
    (∀ i f v, (⟨i, f, v⟩ : Binding) ∈ genBindings p (resolveSeed p.seed r) →
      present w i = true → getField (modify_workflow_generated_audio w p r).1 i f = some v) ∧
    (∀ i f v, (⟨i, f, v⟩ : Binding) ∈ cusBindings p (resolveSeed p.seed r) →
      present w i = true → getField (modify_workflow_custom_audio w p r d).1 i f = some v) := by
  refine ⟨?_, ?_, ?_, ?_, ?_, ?_⟩
  · rw [generated_graph_eq]
    exact nodeIds_applyBindings w _
  · rw [custom_graph_eq]
    exact nodeIds_applyBindings w _
  · intro i hp
    rw [generated_graph_eq, present_applyBindings]
    exact hp
  · intro i hp
    rw [custom_graph_eq, present_applyBindings]
    exact hp
  · intro i f v hm hp
    rw [generated_graph_eq]
    exact getField_applyBindings_mem (genBindings_pairs_nodup p _) hm hp
  · intro i f v hm hp
    rw [custom_graph_eq]
    exact getField_applyBindings_mem (cusBindings_pairs_nodup p _) hm hp

set_option maxHeartbeats 2000000 in
/-- C7, witness: on a graph missing most target identifiers, an absent target
stays absent and a present target is bound. -/
theorem C7_witness :
    present exSeedWorkflow "92:108" = false ∧
    present (modify_workflow_generated_audio exSeedWorkflow exSeedParams 0).1 "92:108" = false ∧
    getField (modify_workflow_generated_audio exSeedWorkflow exSeedParams 0).1
      "92:11" "noise_seed" = some (.int 5) := by
  refine ⟨by decide, ?_, ?_⟩
  · exact (C7_binder_tolerance exSeedWorkflow exSeedParams 0 0).2.2.1 "92:108" (by decide)
  · exact (C7_binder_tolerance exSeedWorkflow exSeedParams 0 0).2.2.2.2.1 "92:11" "noise_seed"
      (.int 5) (by decide) (by decide)

/-- C8, counterexample: a poll response that reports an execution-error status
but carries an empty `messages` list makes the message extraction fail with
an index error, which the generic handler swallows as a transient failure:
the poller retries until the budget is gone and reports a timeout instead of
returning the execution error immediately. -/
theorem C8_counterexample :
    exErrEntry.status_str = some "error" ∧
    exErrEntry.messages = some [] ∧
    wait_for_completion (fun _ => .history (some exErrEntry)) 5 = .timedOut := by
  refine ⟨rfl, rfl, by decide⟩

/-- C8, amended: a poll response reporting an execution-error status whose
messages field is absent or non-empty makes the poller return the
engine-provided message immediately — at the first such tick, before the
budget elapses, independent of later responses — while transport failures and
malformed responses decide nothing and are retried on the next tick.  (An
error status with an empty messages list is instead swallowed as transient.) -/
theorem C8_exec_error_immediate (resp : ℕ → PollResponse) (timeout t : ℕ)
    (e : HistEntry) (m : List String)
    (hbefore : ∀ i, i < t → stepOutcome (resp i) = none)
    (hat : resp t = .history (some e))
    (herr : e.status_str = some "error")
    (hmsg : errMsgOf e.messages = some m)
    (ht : t < timeout) :
    wait_for_completion resp timeout = .execError m ∧
    stepOutcome .netErr = none ∧ stepOutcome .malformed = none := by
  refine ⟨?_, rfl, rfl⟩
  have hstep : stepOutcome (resp t) = some (.execError m) := by
    rw [hat]; simp [stepOutcome, herr, hmsg]
  show pollLoop resp 0 timeout = .execError m
  exact pollLoop_terminates_at resp timeout 0
    (fun i hi => by simpa using hbefore i hi)
    (by simpa using hstep) ht

/-- C8, witness: an error status with a message on the first tick is returned
at once within a budget of 5 ticks. -/
theorem C8_witness :
    wait_for_completion (fun _ => .history (some ⟨[], some "error", some [["boom"]]⟩)) 5
      = .execError ["boom"] :=
  (C8_exec_error_immediate (fun _ => .history (some ⟨[], some "error", some [["boom"]]⟩))
    5 0 ⟨[], some "error", some [["boom"]]⟩ ["boom"]
    (fun i hi => absurd hi (Nat.not_lt_zero i)) rfl rfl rfl (by decide)).1

/-- C4, counterexample: the missing-image request produces a terminal failure
result that does not carry the `{error, traceback, elapsed_time}` shape — it
has no traceback and no elapsed time. -/
theorem C4_counterexample :
    isTerminalFailure (handler exMissingImageJob (exEnv 0)).result = true ∧
    hasFullFailureShape (handler exMissingImageJob (exEnv 0)).result = false := by
  decide

/-- C4, amended: the handler never raises past its boundary (it is a total
function into structured results); every failure raised inside the pipeline is
converted to the full `{error, traceback, elapsed_time}` shape, while the four
early validation/availability/no-artifact returns carry only the error string. -/
theorem C4_failure_shape_discipline (j : JobInput) (env : Env) :
    failureShapeOk (handler j env).result := by
  simp only [handler, handlerCore]
  repeat' split
  all_goals simp [failureShapeOk]

/-- C5: artifact keys are searched in priority order — the primary video key
first, then the legacy alternates, then the generic media/file keys — and for
a node carrying entries under both the primary key and an alternate key, the
primary entry is returned when its path exists; the first candidate whose
resolved path exists is the one read. -/
theorem C5_primary_key_precedence (ex : String → Bool) (tree : List DirListing)
    (nid f₁ f₂ k : String) (hk : k = "videos" ∨ k = "video")
    (h₁ : f₁ ≠ "") (h₂ : f₂ ≠ "") :
    keyOrder = ["gifs"] ++ ["videos", "video"] ++ ["images", "files"] ∧
    (ex ("/comfyui/output/" ++ f₁) = true →
      get_output_video [(nid, [("gifs", .one (.obj (some f₁) "")), (k, .one (.obj (some f₂) ""))])]
        ex tree = some ("/comfyui/output/" ++ f₁)) ∧
    (ex ("/comfyui/output/" ++ f₁) = false → ex ("/comfyui/output/" ++ f₂) = true →
      get_output_video [(nid, [("gifs", .one (.obj (some f₁) "")), (k, .one (.obj (some f₂) ""))])]
        ex tree = some ("/comfyui/output/" ++ f₂)) := by
  refine ⟨rfl, ?_, ?_⟩
  · intro hex
    rcases hk with hk | hk <;> subst hk <;>
      simp [get_output_video, findInNode, keyOrder, findInItems, entryItems, itemPath,
        lookupS, h₁, h₂, hex]
  · intro hex1 hex2
    rcases hk with hk | hk <;> subst hk <;>
      simp [get_output_video, findInNode, keyOrder, findInItems, entryItems, itemPath,
        lookupS, h₁, h₂, hex1, hex2]

/-- C5, witness: with both files on disk, the entry under the primary key wins
over the alternate-key entry. -/
theorem C5_witness :
    get_output_video
      [("9", [("gifs", .one (.obj (some "a.mp4") "")), ("videos", .one (.obj (some "b.mp4") ""))])]
      (fun s => decide (s = "/comfyui/output/a.mp4") || decide (s = "/comfyui/output/b.mp4")) []
      = some ("/comfyui/output/a.mp4") :=
  (C5_primary_key_precedence
    (fun s => decide (s = "/comfyui/output/a.mp4") || decide (s = "/comfyui/output/b.mp4")) [] "9"
    "a.mp4" "b.mp4" "videos" (Or.inl rfl) (by decide) (by decide)).2.1 (by decide)

/-- C6, counterexample: the directory fallback returns files in reverse
lexicographic filename order, not reverse-chronological order: with an older
file whose name sorts later, the scan returns the older file while the most
recent media file is the other one. -/
theorem C6_counterexample :
    scanFallback exTree = some "/comfyui/output/b.mp4" ∧
    reverseChronologicalFirst exTree = some "/comfyui/output/a.mp4" ∧
    ("/comfyui/output/b.mp4" : String) ≠ "/comfyui/output/a.mp4" := by
  refine ⟨by decide, by decide, by decide⟩

/-- C6, amended: when no output candidate resolves, the resolver falls back to
the directory-tree scan, which visits directories in walk order and, within a
directory, returns the recognized-media file that is greatest in lexicographic
filename order (the first in reverse-lexicographic order, not
reverse-chronological order); when nothing resolves at all the handler reports
the structured `No video output generated` error rather than crashing. -/
theorem C6_fallback_scan (outs outs2 : Outputs) (ex : String → Bool)
    (tree : List DirListing) (j : JobInput) (env : Env) (d : DirListing) (g : String) :
    (outs.findSome? (fun nd => findInNode ex nd.2) = none →
      get_output_video outs ex tree = scanFallback tree) ∧
    (scanDir d = none ↔ ∀ f ∈ d.2, hasMediaExt f.1 = false) ∧
    ((sortDesc (d.2.map Prod.fst)).find? hasMediaExt = some g →
      scanDir d = some (d.1 ++ "/" ++ g) ∧ g ∈ d.2.map Prod.fst ∧ hasMediaExt g = true ∧
        ∀ g' ∈ d.2.map Prod.fst, hasMediaExt g' = true → pyStrLt g g' = false) ∧
    (j.image.isNone = false → j.prompt.isNone = false → env.comfyReady = true →
      env.queueErr = none →
      wait_for_completion env.resp (resolveParams j).timeout.toNat = .completed outs2 →
      get_output_video outs2 env.ex env.tree = none →
      handler j env = ⟨.errorOnly "No video output generated", true⟩) := by
  refine ⟨?_, ?_, ?_, ?_⟩
  · intro h
    simp [get_output_video, h]
  · simp only [scanDir, Option.map_eq_none', List.find?_eq_none, mem_sortDesc]
    constructor
    · intro h f hf
      have := h f.1 (List.mem_map_of_mem Prod.fst hf)
      simpa using this
    · intro h x hx
      rcases List.mem_map.mp hx with ⟨f, hf, rfl⟩
      simp [h f hf]
  · intro h
    refine ⟨by simp [scanDir, h], ?_, List.find?_some h, ?_⟩
    · exact mem_sortDesc.mp (List.mem_of_find?_eq_some h)
    · intro g' hg' hq
      exact find?_desc_max (sortDesc_pairwise _) h g' (mem_sortDesc.mpr hg') hq
  · intro h1 h2 hr hq hw hv
    rw [handler_eq_core j env h1 h2]
    by_cases hc : hasCustomAudio j = true <;>
      simp [handlerCore, hc, hr, hq, hw, hv]

/-- C6, witness: the amended theorem at the concrete tree — the scan picks the
reverse-lexicographically first media file — and the no-candidate fallback. -/
theorem C6_witness :
    scanDir ("/comfyui/output", [("a.mp4", 100), ("b.mp4", 50)])
      = some ("/comfyui/output" ++ "/" ++ "b.mp4") ∧
    get_output_video [] exExists exTree = scanFallback exTree := by
  refine ⟨?_, ?_⟩
  · exact ((C6_fallback_scan [] [] exExists exTree exCustomJob (exEnv 0)
      ("/comfyui/output", [("a.mp4", 100), ("b.mp4", 50)]) "b.mp4").2.2.1 (by decide)).1
  · exact (C6_fallback_scan [] [] exExists exTree exCustomJob (exEnv 0)
      ("/comfyui/output", [("a.mp4", 100), ("b.mp4", 50)]) "b.mp4").1 rfl

/-- C2, counterexample: a custom-audio request whose measured audio duration
is 0.0 (falsy in Python) has the caller-supplied frame count echoed in the
result parameters instead of the derived `floor(duration * fps) + 1`. -/
theorem C2_counterexample :
    hasCustomAudio exCustomJob = true ∧
    resultFrameCount (handler exCustomJob (exEnv 0)).result = some 42 ∧
    ((42 : Int) ≠ ⌊(0 : ℚ) * ((25 : Int) : ℚ)⌋ + 1) := by
  refine ⟨rfl, by decide, by norm_num⟩

/-- C2, amended: for every custom-audio request whose measured duration is
positive, the echoed frame count is `int(duration * fps) + 1` — which equals
`floor(duration * fps) + 1` for the nonnegative frame rates the pipeline uses
— and the caller-supplied frame count influences nothing in the run. -/
theorem C2_frame_count_derived (j : JobInput) (env : Env) (outs : Outputs) (vid : String)
    (h1 : j.image.isNone = false) (h2 : j.prompt.isNone = false)
    (haud : hasCustomAudio j = true) (hd : 0 < env.audioDuration)
    (hr : env.comfyReady = true) (hq : env.queueErr = none)
    (hw : wait_for_completion env.resp (resolveParams j).timeout.toNat = .completed outs)
    (hv : get_output_video outs env.ex env.tree = some vid) :
    resultFrameCount (handler j env).result
      = some (derivedFrameCount env.audioDuration (resolveParams j).fps) ∧
    (0 ≤ (resolveParams j).fps →
      derivedFrameCount env.audioDuration (resolveParams j).fps
        = ⌊env.audioDuration * (((resolveParams j).fps : Int) : ℚ)⌋ + 1) ∧
    (∀ fc : Option Int, handler { j with frame_count := fc } env = handler j env) := by
  have hd0 : env.audioDuration ≠ 0 := ne_of_gt hd
  refine ⟨?_, ?_, ?_⟩
  · rw [handler_eq_core j env h1 h2, haud]
    simp [handlerCore, hr, hq, hw, hv, resultFrameCount, mkEcho, custom_params_eq, hd0]
  · intro hfps
    unfold derivedFrameCount
    rw [pyInt_eq_floor (mul_nonneg hd.le (by exact_mod_cast hfps))]
  · intro fc
    have h1' : ({ j with frame_count := fc } : JobInput).image.isNone = false := h1
    have h2' : ({ j with frame_count := fc } : JobInput).prompt.isNone = false := h2
    have haud' : hasCustomAudio { j with frame_count := fc } = true := haud
    rw [handler_eq_core _ env h1' h2', handler_eq_core j env h1 h2, haud, haud']
    have hresolve : resolveParams { j with frame_count := fc }
        = { resolveParams j with frame_count := fc.getD 97 } := rfl
    rw [hresolve]
    exact handlerCore_frame_count_irrelevant (resolveParams j) env (fc.getD 97) hd0

/-- C2, witness: with duration 2 s and the default 25 fps the echoed frame
count is 51. -/
theorem C2_witness :
    resultFrameCount (handler exCustomJob (exEnv 2)).result = some 51 := by
  have h := C2_frame_count_derived exCustomJob (exEnv 2) exOutputs "/comfyui/output/a.mp4"
    rfl rfl rfl (by norm_num : (0 : ℚ) < 2) rfl rfl (by decide) (by decide)
  rw [h.1]
  simp only [exEnv, resolveParams, exCustomJob, derivedFrameCount, pyInt, Option.getD]
  norm_num [Rat.num_ofNat, Rat.den_ofNat, Int.tdiv_one]

/-- C9: when the seed is absent or the -1 sentinel, the generated seed is the
entropy draw reduced to `[0, 2^31 - 1]` (every value of that range is
attainable, uniformly when the oracle is uniform), the same value the binders
resolve — kept fixed for the run — and it is echoed in the success result's
seed field. -/
theorem C9_random_seed (j : JobInput) (env : Env) (outs : Outputs) (vid : String)
    (h1 : j.image.isNone = false) (h2 : j.prompt.isNone = false)
    (hseed : j.seed = none ∨ j.seed = some (-1))
    (hr : env.comfyReady = true) (hq : env.queueErr = none)
    (hw : wait_for_completion env.resp (resolveParams j).timeout.toNat = .completed outs)
    (hv : get_output_video outs env.ex env.tree = some vid) :
    0 ≤ randint31 env.rng ∧ randint31 env.rng ≤ 2 ^ 31 - 1 ∧
    resolveSeed (resolveParams j).seed env.rng = randint31 env.rng ∧
    resultSeed (handler j env).result = some (some (randint31 env.rng)) ∧
    (∀ k : Int, 0 ≤ k → k ≤ 2 ^ 31 - 1 → ∃ r : ℕ, randint31 r = k) := by
  have hres : resolveSeed (resolveParams j).seed env.rng = randint31 env.rng := by
    rcases hseed with h | h <;>
      simp [resolveParams, resolveSeed, h]
  refine ⟨Int.natCast_nonneg _, ?_, hres, ?_, ?_⟩
  · unfold randint31
    have := Nat.mod_lt env.rng (show 0 < 2 ^ 31 by norm_num)
    omega
  · rw [handler_eq_core j env h1 h2]
    by_cases hc : hasCustomAudio j = true <;>
      simp [handlerCore, hc, hr, hq, hw, hv, resultSeed,
        custom_params_eq, generated_params_eq, hres]
  · intro k hk0 hk1
    refine ⟨k.toNat, ?_⟩
    unfold randint31
    rw [Nat.mod_eq_of_lt (by omega)]
    rw [Int.toNat_of_nonneg hk0]

/-- C9, witness: with no caller seed the oracle value 12345 is resolved and
echoed. -/
theorem C9_witness :
    resultSeed (handler exGenJob (exEnv 0)).result = some (some 12345) := by
  have h := C9_random_seed exGenJob (exEnv 0) exOutputs "/comfyui/output/a.mp4"
    rfl rfl (Or.inl rfl) rfl rfl (by decide) (by decide)
  rw [h.2.2.2.1]
  decide

/-- C10, counterexample: in a custom-audio run with measured duration 0.0 the
derived frame count (`floor(0 * 25) + 1 = 1`) is not what the result
parameters echo — the defaulted caller value 97 is echoed instead. -/
theorem C10_counterexample :
    hasCustomAudio exCustomJobDefault = true ∧
    resultFrameCount (handler exCustomJobDefault (exEnv 0)).result = some 97 ∧
    ((97 : Int) ≠ ⌊(0 : ℚ) * ((25 : Int) : ℚ)⌋ + 1) := by
  refine ⟨rfl, by decide, by norm_num⟩

/-- C10, amended: the custom-audio binder writes no frame-count value into the
graph — the bound graph is independent of the audio duration, only the fixed
(node, field) table can change, and that table has no frame-count target —
while the derived frame count is computed and, for positive measured
durations, echoed in the result parameters. -/
theorem C10_frame_count_not_bound (w : Workflow) (p : Params) (r : ℕ) (d d' : ℚ)
    (i f : String) :
    (modify_workflow_custom_audio w p r d).1 = (modify_workflow_custom_audio w p r d').1 ∧
    nodeIds (modify_workflow_custom_audio w p r d).1 = nodeIds w ∧
    ((i, f) ∉ pairsOf (cusBindings p (resolveSeed p.seed r)) →
      getField (modify_workflow_custom_audio w p r d).1 i f = getField w i f) ∧
    ("92:62", "value") ∉ pairsOf (cusBindings p (resolveSeed p.seed r)) ∧
    (0 < d → (mkEcho p (some d)).frame_count = derivedFrameCount d p.fps) ∧
    (0 < d → 0 ≤ p.fps →
      derivedFrameCount d p.fps = ⌊d * ((p.fps : Int) : ℚ)⌋ + 1) := by
  refine ⟨?_, ?_, ?_, ?_, ?_, ?_⟩
  · rw [custom_graph_eq w p r d, custom_graph_eq w p r d']
  · rw [custom_graph_eq]
    exact nodeIds_applyBindings w _
  · intro hnot
    rw [custom_graph_eq]
    apply getField_applyBindings_notin
    intro b hb
    by_cases e1 : b.1 = i
    · by_cases e2 : b.2.1 = f
      · exact absurd (by rw [← e1, ← e2]; exact List.mem_map_of_mem _ hb) hnot
      · exact Or.inr e2
    · exact Or.inl e1
  · rw [pairsOf_cusBindings]
    decide
  · intro hd
    simp [mkEcho, ne_of_gt hd]
  · intro hd hfps
    unfold derivedFrameCount
    rw [pyInt_eq_floor (mul_nonneg hd.le (by exact_mod_cast hfps))]

/-- C10, witness: a non-target (node, field) is untouched by the custom-audio
binder, and the echo for duration 2 s uses the derived value. -/
theorem C10_witness :
    getField (modify_workflow_custom_audio exSeedWorkflow exSeedParams 0 2).1 "77" "foo"
      = getField exSeedWorkflow "77" "foo" ∧
    (mkEcho exSeedParams (some 2)).frame_count = derivedFrameCount 2 exSeedParams.fps := by
  refine ⟨?_, ?_⟩
  · exact (C10_frame_count_not_bound exSeedWorkflow exSeedParams 0 2 2 "77" "foo").2.2.1
      (by decide)
  · exact (C10_frame_count_not_bound exSeedWorkflow exSeedParams 0 2 2 "77" "foo").2.2.2.2.1
      (by norm_num)

end LTX2
